import Mathlib

/-!
Verification of the circuit breaker package (breaker.go, config.go, state.go)
against its natural-language specification.

Modelling conventions:
- Go `time.Time` values and `time.Duration` values are both modelled as `Int`
  (nanoseconds); the zero `time.Time{}` is `0`, and `time.Since(t)` evaluated
  at instant `now` is `now - t`.  Every operation that reads the clock takes
  the current instant `now : Int` as an explicit argument.
- Go `int` is modelled by unbounded `Int`; no claim here depends on 64-bit
  overflow behaviour.
- Go errors are modelled by the message given to `errors.New`; `nil` errors
  are `none : Option GoError`.
- Methods that mutate the receiver return the updated record explicitly.
-/

namespace CircuitBreakerLib

/-- State of the circuit breaker (state.go).  `Closed` is listed first so that
it is the zero value, matching the Go `iota` constant order. -/
inductive State where
  | Closed : State
  | Open : State
  | HalfOpen : State
deriving DecidableEq, Repr

/-- A Go error value, identified by the message passed to errors.New. -/
inductive GoError where
  | errorNew : String → GoError
deriving DecidableEq, Repr

/-- ErrCircuitOpen (breaker.go line 27). -/
def ErrCircuitOpen : GoError := GoError.errorNew "circuit breaker is open"

/-- ErrFailedChecks (breaker.go line 28); declared in the package, never returned. -/
def ErrFailedChecks : GoError := GoError.errorNew "failed pre-request checks"

/-- Config (config.go). -/
structure Config where
  Name : String
  FailureThreshold : Int
  SuccessThreshold : Int
  Timeout : Int
deriving DecidableEq, Repr

/-- DefaultConfig (config.go): 3 failures, 5 successes, 10s timeout. -/
def DefaultConfig : Config :=
  { Name := "default", FailureThreshold := 3, SuccessThreshold := 5,
    Timeout := 10 * 1000000000 }

/-- Validate (config.go lines 31-34).  The Go body is a TODO stub: it returns
nil for every configuration, so no configuration is ever rejected. -/
def Config.Validate (_c : Config) : Option GoError := none

/-- CircuitBreaker (breaker.go lines 31-45).  The sync.RWMutex field has no
functional content and is modelled separately by the event trace below. -/
structure CircuitBreaker where
  config : Config
  state : State
  failures : Int
  successes : Int
  lastFailureTime : Int
  lastStateChange : Int
deriving DecidableEq, Repr

/-- New (breaker.go lines 48-54): stores the config and leaves every other
field at its Go zero value (state 0 = Closed, counters 0, zero timestamps).
No validation of the config is performed. -/
def New (config : Config) : CircuitBreaker :=
  { config := config, state := State.Closed, failures := 0, successes := 0,
    lastFailureTime := 0, lastStateChange := 0 }

/-- canExecuteRequest (breaker.go lines 101-125).  Returns the admission
verdict together with the possibly updated breaker (the Open branch moves the
state to HalfOpen as a side effect when the timeout has elapsed).  In the Go
source the HalfOpen branch with an unexpired timeout has no return statement
and falls through past the Closed check to the final return false; the net
result is (false, unchanged), as written here. -/
def canExecuteRequest (cb : CircuitBreaker) (now : Int) : Bool × CircuitBreaker :=
  if cb.state = State.Open then
    if cb.config.Timeout ≤ now - cb.lastStateChange then
      (true, { cb with state := State.HalfOpen })
    else
      (false, cb)
  else if cb.state = State.HalfOpen then
    if cb.config.Timeout ≤ now - cb.lastFailureTime then
      (true, cb)
    else
      (false, cb)
  else if cb.state = State.Closed then
    (true, cb)
  else
    (false, cb)

/-- afterRequestUpdates (breaker.go lines 72-97).  The Go function also
receives the result value, which it never reads; only the presence of the
error matters, so the result argument is omitted here. -/
def afterRequestUpdates (cb : CircuitBreaker) (err : Option GoError) (now : Int) :
    CircuitBreaker :=
  if err.isSome then
    let cb1 :=
      if cb.state = State.HalfOpen then
        { cb with state := State.Open, lastStateChange := now }
      else cb
    let cb2 := { cb1 with failures := cb1.failures + 1 }
    if cb2.config.FailureThreshold ≤ cb2.failures then
      { cb2 with state := State.Open, lastStateChange := now }
    else cb2
  else
    let cb1 := { cb with failures := 0, successes := cb.successes + 1 }
    if cb1.config.SuccessThreshold ≤ cb1.successes ∧ cb1.state = State.HalfOpen then
      { cb1 with state := State.Closed }
    else cb1

/-- Execute (breaker.go lines 58-70): consult canExecuteRequest; when refused
return (nil, ErrCircuitOpen) without invoking the request; when admitted run
the request, apply afterRequestUpdates to its error, and return the request
result pair unchanged. -/
def Execute {α : Type} (cb : CircuitBreaker)
    (request : Unit → Option α × Option GoError) (now : Int) :
    (Option α × Option GoError) × CircuitBreaker :=
  let canExecute := (canExecuteRequest cb now).1
  let cb1 := (canExecuteRequest cb now).2
  if canExecute = false then
    ((none, some ErrCircuitOpen), cb1)
  else
    let r := request ()
    (r, afterRequestUpdates cb1 r.2 now)

/-- processFailure (breaker.go lines 127-137).  Increments failures, records
both timestamps and opens at the threshold.  No caller in the package ever
invokes it: it is dead code, so lastFailureTime is never written by Execute. -/
def processFailure (cb : CircuitBreaker) (now : Int) : CircuitBreaker :=
  let cb1 := { cb with
    failures := cb.failures + 1
    lastFailureTime := now
    lastStateChange := now }
  if cb1.config.FailureThreshold ≤ cb1.failures then
    { cb1 with state := State.Open }
  else cb1

/-- Reset (breaker.go lines 148-157): zero both counters, clear both
timestamps, set the state to Closed, regardless of the current state. -/
def Reset (cb : CircuitBreaker) : CircuitBreaker :=
  { cb with
    failures := 0
    lastFailureTime := 0
    lastStateChange := 0
    successes := 0
    state := State.Closed }

/-- onStateChange (breaker.go lines 139-141): delegates to Reset; dead code. -/
def onStateChange (cb : CircuitBreaker) : CircuitBreaker := Reset cb

/-- errSimulated, the failing-call error used by the package tests. -/
def errSimulated : GoError := GoError.errorNew "simulated failure"

/-- One Execute call whose wrapped request returns the given error (none for
success) at the given instant, keeping only the breaker state. -/
def execStep (cb : CircuitBreaker) (o : Option GoError × Int) : CircuitBreaker :=
  (Execute cb (fun _ => ((none : Option Unit), o.1)) o.2).2

/-- Run a sequence of Execute calls, each with its own outcome and instant. -/
def runCalls (cb : CircuitBreaker) (l : List (Option GoError × Int)) : CircuitBreaker :=
  l.foldl execStep cb

/-- Lock and work events of one Execute call (breaker.go lines 58-70), in the
order the statements execute: mu.Lock() on entry (line 59), the deferred
mu.Unlock() (line 60) runs when the function returns, canExecuteRequest
(line 62), and, when admitted, request() (line 66) followed by
afterRequestUpdates (line 68). -/
inductive ExecEvent where
  | lockAcquire : ExecEvent
  | admissionCheck : ExecEvent
  | wrappedCall : ExecEvent
  | bookkeeping : ExecEvent
  | lockRelease : ExecEvent
deriving DecidableEq, Repr

/-- Event trace of Execute for an admitted and for a rejected call, read off
the statement order of breaker.go lines 58-70 (the deferred unlock is last). -/
def executeEventTrace (admitted : Bool) : List ExecEvent :=
  if admitted then
    [ExecEvent.lockAcquire, ExecEvent.admissionCheck, ExecEvent.wrappedCall,
     ExecEvent.bookkeeping, ExecEvent.lockRelease]
  else
    [ExecEvent.lockAcquire, ExecEvent.admissionCheck, ExecEvent.lockRelease]

/-- An event occurs while the exclusive lock is held: it appears strictly
after the lockAcquire event and before the lockRelease event of the trace. -/
def occursLocked (e : ExecEvent) (tr : List ExecEvent) : Bool :=
  (((tr.dropWhile (fun x => x != ExecEvent.lockAcquire)).drop 1).takeWhile
    (fun x => x != ExecEvent.lockRelease)).contains e

/-- Specification predicate for C6: starting from a failure counter already at
f, the outcome sequence never accumulates thr consecutive failures (a success
resets the count, a failure increments it). -/
def noTrip (f thr : Int) : List (Option GoError × Int) → Bool
  | [] => true
  | o :: rest =>
    if o.1.isSome then decide (f + 1 < thr) && noTrip (f + 1) thr rest
    else noTrip 0 thr rest

/-- The configuration the package tests use (breaker_test.go newTestBreaker);
time units are abstract, so the 100ms timeout is written as 100. -/
def testConfig : Config :=
  { Name := "test", FailureThreshold := 3, SuccessThreshold := 2, Timeout := 100 }

/-- A breaker that tripped at instant 50 under testConfig. -/
def cbOpenSample : CircuitBreaker :=
  { config := testConfig, state := State.Open, failures := 3, successes := 0,
    lastFailureTime := 0, lastStateChange := 50 }

/-- testConfig with a success threshold of 1. -/
def probeConfig1 : Config :=
  { Name := "test", FailureThreshold := 3, SuccessThreshold := 1, Timeout := 100 }

/-- A probing breaker one success away from closing (success threshold 1). -/
def cbProbeSample : CircuitBreaker :=
  { config := probeConfig1, state := State.HalfOpen, failures := 0, successes := 0,
    lastFailureTime := 0, lastStateChange := 50 }

/-- A probing breaker under testConfig with no successes accumulated yet. -/
def cbProbeRun : CircuitBreaker :=
  { config := testConfig, state := State.HalfOpen, failures := 2, successes := 0,
    lastFailureTime := 0, lastStateChange := 50 }

/-- A probing breaker under testConfig with one success already accumulated. -/
def cbProbeFail : CircuitBreaker :=
  { config := testConfig, state := State.HalfOpen, failures := 0, successes := 1,
    lastFailureTime := 0, lastStateChange := 50 }

/-- A configuration with non-positive thresholds. -/
def badConfig : Config :=
  { Name := "bad", FailureThreshold := 0, SuccessThreshold := 0, Timeout := 100 }

/-- Call history for C10: two successes while Closed, then three failures at
instant 10 that trip the breaker; the successes counter stays at 2. -/
def earlyCloseHistory : List (Option GoError × Int) :=
  [((none : Option GoError), 0), ((none : Option GoError), 0),
   (some errSimulated, 10), (some errSimulated, 10), (some errSimulated, 10)]

/-- The failure, failure, success, failure, failure example of C6, no run of
3 consecutive failures. -/
def exampleFFSFF : List (Option GoError × Int) :=
  [(some errSimulated, 1), (some errSimulated, 2), ((none : Option GoError), 3),
   (some errSimulated, 4), (some errSimulated, 5)]

/-- C1: while the breaker is Open (Rejecting) and less than Timeout has
elapsed since the last state change, Execute returns (nil, ErrCircuitOpen) and
its entire outcome is independent of the wrapped request, so the request is
never invoked; and every admitted call returns exactly the (result, error)
pair the wrapped request returned, unmodified. -/
theorem execute_open_rejects_and_passes_through :
    (∀ (α : Type) (cb : CircuitBreaker)
      (request request2 : Unit → Option α × Option GoError) (now : Int),
      cb.state = State.Open → now - cb.lastStateChange < cb.config.Timeout →
      (Execute cb request now).1 = ((none : Option α), some ErrCircuitOpen) ∧
      Execute cb request now = Execute cb request2 now) ∧
    (∀ (α : Type) (cb : CircuitBreaker)
      (request : Unit → Option α × Option GoError) (now : Int),
      (canExecuteRequest cb now).1 = true →
      (Execute cb request now).1 = request ()) := by
  constructor
  · intro α cb request request2 now hst hlt
    have hcan : canExecuteRequest cb now = (false, cb) := by
      simp [canExecuteRequest, hst, not_le.mpr hlt]
    constructor
    · simp [Execute, hcan]
    · simp [Execute, hcan]
  · intro α cb request now hcan
    simp [Execute, hcan]

/-- Witness for C1: a breaker that tripped at instant 50 with timeout 100
rejects a call at instant 100 with (nil, ErrCircuitOpen). -/
theorem execute_open_rejects_and_passes_through_witness :
    (Execute cbOpenSample (fun _ => ((some "ok" : Option String), none)) 100).1 =
      ((none : Option String), some ErrCircuitOpen) :=
  (execute_open_rejects_and_passes_through.1 String cbOpenSample
    (fun _ => ((some "ok" : Option String), none))
    (fun _ => ((some "ok" : Option String), none)) 100 rfl (by decide)).1

/-- C3: when the breaker is Open and at least Timeout has elapsed since the
last state change, the admission check itself succeeds and moves the state to
HalfOpen (Probing) before the wrapped call runs; and when that admitted call
fails, the resulting state is Open again with the state change recorded at the
instant of the call, with no condition on the failure counter or threshold. -/
theorem open_timeout_probes_then_failure_reopens (cb : CircuitBreaker) (now : Int)
    (e : GoError) (hst : cb.state = State.Open)
    (helapsed : cb.config.Timeout ≤ now - cb.lastStateChange) :
    canExecuteRequest cb now = (true, { cb with state := State.HalfOpen }) ∧
    (Execute cb (fun _ => ((none : Option Unit), some e)) now).2.state = State.Open ∧
    (Execute cb (fun _ => ((none : Option Unit), some e)) now).2.lastStateChange = now := by
  have hcan : canExecuteRequest cb now = (true, { cb with state := State.HalfOpen }) := by
    simp [canExecuteRequest, hst, helapsed]
  refine ⟨hcan, ?_, ?_⟩ <;>
  · simp [Execute, hcan, afterRequestUpdates]

/-- Witness for C3: the breaker that tripped at instant 50 admits the probe at
instant 200, and the failed probe reopens it at instant 200. -/
theorem open_timeout_probes_then_failure_reopens_witness :
    canExecuteRequest cbOpenSample 200 =
      (true, { cbOpenSample with state := State.HalfOpen }) ∧
    (Execute cbOpenSample (fun _ => ((none : Option Unit), some errSimulated)) 200).2.state =
      State.Open ∧
    (Execute cbOpenSample (fun _ => ((none : Option Unit), some errSimulated)) 200).2.lastStateChange =
      200 :=
  open_timeout_probes_then_failure_reopens cbOpenSample 200 errSimulated rfl (by decide)

/-- C8: Reset, from any state and any counters and timestamps, yields the
Closed state with both counters 0 and both timestamps cleared, and every
subsequent Execute call is admitted and returns exactly what its request
returned. -/
theorem reset_restores_normal (cb : CircuitBreaker) :
    (Reset cb).state = State.Closed ∧ (Reset cb).failures = 0 ∧
    (Reset cb).successes = 0 ∧ (Reset cb).lastFailureTime = 0 ∧
    (Reset cb).lastStateChange = 0 ∧
    ∀ (α : Type) (request : Unit → Option α × Option GoError) (now : Int),
      (Execute (Reset cb) request now).1 = request () := by
  refine ⟨rfl, rfl, rfl, rfl, rfl, ?_⟩
  intro α request now
  have hcan : canExecuteRequest (Reset cb) now = (true, Reset cb) := by
    simp [canExecuteRequest, Reset]
  simp [Execute, hcan]

/-- Witness for C8: resetting the tripped sample breaker yields Closed. -/
theorem reset_restores_normal_witness :
    (Reset cbOpenSample).state = State.Closed :=
  (reset_restores_normal cbOpenSample).1

/-- Counterexample for C9: in the event trace of an admitted Execute call the
wrapped call occurs between the lock acquisition and the deferred release, so
it is false that the wrapped call executes outside the lock. -/
theorem execute_lock_scope_counterexample :
    ¬ occursLocked ExecEvent.wrappedCall (executeEventTrace true) = false := by
  decide

/-- C9 amended: the exclusive lock is acquired on entry to Execute and only
released on return, so the admission decision, the wrapped call (when
admitted) and the post-outcome bookkeeping all execute while the lock is
held; a slow wrapped call therefore blocks concurrent callers. -/
theorem execute_lock_held_throughout :
    occursLocked ExecEvent.admissionCheck (executeEventTrace true) = true ∧
    occursLocked ExecEvent.wrappedCall (executeEventTrace true) = true ∧
    occursLocked ExecEvent.bookkeeping (executeEventTrace true) = true ∧
    occursLocked ExecEvent.admissionCheck (executeEventTrace false) = true := by
  decide

lemma runCalls_append (cb : CircuitBreaker) (l1 l2 : List (Option GoError × Int)) :
    runCalls cb (l1 ++ l2) = runCalls (runCalls cb l1) l2 := by
  simp [runCalls, List.foldl_append]

lemma canExecuteRequest_closed (cb : CircuitBreaker) (t : Int)
    (hst : cb.state = State.Closed) :
    canExecuteRequest cb t = (true, cb) := by
  simp [canExecuteRequest, hst]

lemma execStep_closed_fail (cb : CircuitBreaker) (e : GoError) (t : Int)
    (hst : cb.state = State.Closed)
    (hlt : cb.failures + 1 < cb.config.FailureThreshold) :
    (execStep cb (some e, t)).state = State.Closed ∧
    (execStep cb (some e, t)).failures = cb.failures + 1 ∧
    (execStep cb (some e, t)).config = cb.config ∧
    (execStep cb (some e, t)).lastStateChange = cb.lastStateChange := by
  have hcan := canExecuteRequest_closed cb t hst
  have hnot : ¬ cb.config.FailureThreshold ≤ cb.failures + 1 := not_le.mpr hlt
  simp [execStep, Execute, hcan, afterRequestUpdates, hst, hnot]

lemma execStep_closed_fail_trips (cb : CircuitBreaker) (e : GoError) (t : Int)
    (hst : cb.state = State.Closed)
    (hge : cb.config.FailureThreshold ≤ cb.failures + 1) :
    (execStep cb (some e, t)).state = State.Open ∧
    (execStep cb (some e, t)).lastStateChange = t := by
  have hcan := canExecuteRequest_closed cb t hst
  simp [execStep, Execute, hcan, afterRequestUpdates, hst, hge]

lemma runCalls_closed_fails (ts : List Int) :
    ∀ (cb : CircuitBreaker), cb.state = State.Closed →
    cb.failures + (ts.length : Int) < cb.config.FailureThreshold →
    (runCalls cb (ts.map fun u => (some errSimulated, u))).state = State.Closed ∧
    (runCalls cb (ts.map fun u => (some errSimulated, u))).failures =
      cb.failures + (ts.length : Int) ∧
    (runCalls cb (ts.map fun u => (some errSimulated, u))).config = cb.config ∧
    (runCalls cb (ts.map fun u => (some errSimulated, u))).lastStateChange =
      cb.lastStateChange := by
  induction ts with
  | nil =>
    intro cb hst _
    simpa [runCalls] using hst
  | cons t ts ih =>
    intro cb hst hlt
    have hlen : ((ts.length + 1 : Nat) : Int) = (ts.length : Int) + 1 := by push_cast; ring
    have hlt1 : cb.failures + 1 < cb.config.FailureThreshold := by
      have h0 : (0 : Int) ≤ (ts.length : Int) := Int.ofNat_nonneg _
      simp only [List.length_cons, hlen] at hlt
      omega
    obtain ⟨h1, h2, h3, h4⟩ := execStep_closed_fail cb errSimulated t hst hlt1
    have hrest := ih (execStep cb (some errSimulated, t)) h1 (by
      rw [h2, h3]
      simp only [List.length_cons, hlen] at hlt
      omega)
    simp only [runCalls, List.map_cons, List.foldl_cons] at hrest ⊢
    refine ⟨hrest.1, ?_, ?_, ?_⟩
    · rw [hrest.2.1, h2]
      simp only [List.length_cons, hlen]
      ring
    · rw [hrest.2.2.1, h3]
    · rw [hrest.2.2.2, h4]

/-- C2: starting Closed with a zero failure counter, any run of fewer than
FailureThreshold consecutive failing calls leaves the breaker Closed, and the
FailureThreshold-th consecutive failing call, at instant t, moves it to Open
with lastStateChange recorded as t (for every threshold, so in particular
every threshold at least 1). -/
theorem normal_consecutive_failures_trip (cb : CircuitBreaker) (ts : List Int) (t : Int)
    (hst : cb.state = State.Closed) (hf : cb.failures = 0) :
    ((ts.length : Int) < cb.config.FailureThreshold →
      (runCalls cb (ts.map fun u => (some errSimulated, u))).state = State.Closed) ∧
    ((ts.length : Int) + 1 = cb.config.FailureThreshold →
      (runCalls cb ((ts.map fun u => (some errSimulated, u)) ++
        [(some errSimulated, t)])).state = State.Open ∧
      (runCalls cb ((ts.map fun u => (some errSimulated, u)) ++
        [(some errSimulated, t)])).lastStateChange = t) := by
  constructor
  · intro hlt
    exact (runCalls_closed_fails ts cb hst (by rw [hf]; omega)).1
  · intro heq
    obtain ⟨h1, h2, h3, _⟩ := runCalls_closed_fails ts cb hst (by rw [hf]; omega)
    rw [runCalls_append]
    have hge : (runCalls cb (ts.map fun u => (some errSimulated, u))).config.FailureThreshold ≤
        (runCalls cb (ts.map fun u => (some errSimulated, u))).failures + 1 := by
      rw [h2, h3, hf]
      omega
    have hstep := execStep_closed_fail_trips
      (runCalls cb (ts.map fun u => (some errSimulated, u))) errSimulated t h1 hge
    simpa [runCalls] using hstep

/-- Witness for C2: under testConfig (threshold 3) a fresh breaker stays
Closed after two failures and opens at the third, recording its instant. -/
theorem normal_consecutive_failures_trip_witness :
    (runCalls (New testConfig)
      (([1, 2].map fun u => ((some errSimulated : Option GoError), u)) ++
        [(some errSimulated, 3)])).state = State.Open ∧
    (runCalls (New testConfig)
      (([1, 2].map fun u => ((some errSimulated : Option GoError), u)) ++
        [(some errSimulated, 3)])).lastStateChange = 3 :=
  (normal_consecutive_failures_trip (New testConfig) [1, 2] 3 rfl rfl).2 (by decide)

lemma canExecuteRequest_halfopen (cb : CircuitBreaker) (t : Int)
    (hst : cb.state = State.HalfOpen)
    (hadm : cb.config.Timeout ≤ t - cb.lastFailureTime) :
    canExecuteRequest cb t = (true, cb) := by
  simp [canExecuteRequest, hst, hadm]

lemma execStep_succ (cb : CircuitBreaker) (t : Int)
    (hst : cb.state = State.HalfOpen ∨ cb.state = State.Closed)
    (hadm : cb.config.Timeout ≤ t - cb.lastFailureTime) :
    (execStep cb ((none : Option GoError), t)).failures = 0 ∧
    (execStep cb ((none : Option GoError), t)).successes = cb.successes + 1 ∧
    (execStep cb ((none : Option GoError), t)).config = cb.config ∧
    (execStep cb ((none : Option GoError), t)).lastFailureTime = cb.lastFailureTime ∧
    ((execStep cb ((none : Option GoError), t)).state = State.HalfOpen ∨
      (execStep cb ((none : Option GoError), t)).state = State.Closed) ∧
    ((execStep cb ((none : Option GoError), t)).state = State.HalfOpen →
      cb.successes + 1 < cb.config.SuccessThreshold) := by
  rcases hst with hst | hst
  · have hcan := canExecuteRequest_halfopen cb t hst hadm
    by_cases hflip : cb.config.SuccessThreshold ≤ cb.successes + 1
    · simp [execStep, Execute, hcan, afterRequestUpdates, hst, hflip]
    · have hlt := not_le.mp hflip
      simp [execStep, Execute, hcan, afterRequestUpdates, hst, hflip, hlt]
  · have hcan := canExecuteRequest_closed cb t hst
    simp [execStep, Execute, hcan, afterRequestUpdates, hst]

lemma runCalls_succs (ts : List Int) :
    ∀ (cb : CircuitBreaker),
    (cb.state = State.HalfOpen ∨ cb.state = State.Closed) →
    (∀ t ∈ ts, cb.config.Timeout ≤ t - cb.lastFailureTime) →
    (runCalls cb (ts.map fun u => ((none : Option GoError), u))).successes =
      cb.successes + (ts.length : Int) ∧
    (runCalls cb (ts.map fun u => ((none : Option GoError), u))).config = cb.config ∧
    (runCalls cb (ts.map fun u => ((none : Option GoError), u))).lastFailureTime =
      cb.lastFailureTime ∧
    ((runCalls cb (ts.map fun u => ((none : Option GoError), u))).state = State.HalfOpen ∨
      (runCalls cb (ts.map fun u => ((none : Option GoError), u))).state = State.Closed) ∧
    (ts ≠ [] →
      (runCalls cb (ts.map fun u => ((none : Option GoError), u))).failures = 0 ∧
      ((runCalls cb (ts.map fun u => ((none : Option GoError), u))).state = State.HalfOpen →
        (runCalls cb (ts.map fun u => ((none : Option GoError), u))).successes <
          cb.config.SuccessThreshold)) := by
  induction ts with
  | nil =>
    intro cb hst _
    refine ⟨by simp [runCalls], by simp [runCalls], by simp [runCalls], ?_, ?_⟩
    · simpa [runCalls] using hst
    · intro h
      exact absurd rfl h
  | cons t ts ih =>
    intro cb hst hadm
    have hadm0 : cb.config.Timeout ≤ t - cb.lastFailureTime :=
      hadm t (List.mem_cons_self t ts)
    obtain ⟨s1, s2, s3, s4, s5, s6⟩ := execStep_succ cb t hst hadm0
    have hadm1 : ∀ u ∈ ts,
        (execStep cb ((none : Option GoError), t)).config.Timeout ≤
          u - (execStep cb ((none : Option GoError), t)).lastFailureTime := by
      intro u hu
      rw [s3, s4]
      exact hadm u (List.mem_cons_of_mem t hu)
    have hrest := ih (execStep cb ((none : Option GoError), t)) s5 hadm1
    simp only [runCalls, List.map_cons, List.foldl_cons] at hrest ⊢
    obtain ⟨r1, r2, r3, r4, r5⟩ := hrest
    have hlen : ((ts.length + 1 : Nat) : Int) = (ts.length : Int) + 1 := by push_cast; ring
    refine ⟨?_, ?_, ?_, r4, ?_⟩
    · rw [r1, s2]
      simp only [List.length_cons, hlen]
      ring
    · rw [r2, s3]
    · rw [r3, s4]
    · intro _
      by_cases hts : ts = []
      · subst hts
        simp only [List.map_nil, List.foldl_nil] at r1 r4 ⊢
        refine ⟨s1, ?_⟩
        intro hho
        have := s6 hho
        calc (execStep cb ((none : Option GoError), t)).successes
            = cb.successes + 1 := s2
          _ < cb.config.SuccessThreshold := this
      · obtain ⟨q1, q2⟩ := r5 hts
        refine ⟨q1, ?_⟩
        intro hho
        have := q2 hho
        rw [s3] at this
        exact this

/-- Counterexample for C4: a probing breaker with success threshold 1 and a
zero success counter closes on one admitted success, but the successes counter
is 1 afterwards, not 0, so the counters are not both reset on the transition
to Closed. -/
theorem probing_close_resets_counters_counterexample :
    (Execute cbProbeSample (fun _ => ((none : Option Unit), none)) 200).2.state =
      State.Closed ∧
    ¬ (Execute cbProbeSample (fun _ => ((none : Option Unit), none)) 200).2.successes = 0 := by
  decide

/-- C4 amended: from the Probing state, SuccessThreshold consecutive admitted
successful calls (for any threshold at least 1 and any starting success count
at least 0) move the state to Closed and reset the failure counter to 0, but
the successes counter is not reset: it ends at its starting value plus
SuccessThreshold. -/
theorem probing_success_threshold_closes (cb : CircuitBreaker) (ts : List Int)
    (hst : cb.state = State.HalfOpen) (hs0 : 0 ≤ cb.successes)
    (hpos : 1 ≤ cb.config.SuccessThreshold)
    (hlen : (ts.length : Int) = cb.config.SuccessThreshold)
    (hadm : ∀ t ∈ ts, cb.config.Timeout ≤ t - cb.lastFailureTime) :
    (runCalls cb (ts.map fun u => ((none : Option GoError), u))).state = State.Closed ∧
    (runCalls cb (ts.map fun u => ((none : Option GoError), u))).failures = 0 ∧
    (runCalls cb (ts.map fun u => ((none : Option GoError), u))).successes =
      cb.successes + cb.config.SuccessThreshold := by
  have hne : ts ≠ [] := by
    intro h
    subst h
    simp only [List.length_nil, Nat.cast_zero] at hlen
    omega
  obtain ⟨r1, _, _, r4, r5⟩ := runCalls_succs ts cb (Or.inl hst) hadm
  obtain ⟨q1, q2⟩ := r5 hne
  have hsucc : (runCalls cb (ts.map fun u => ((none : Option GoError), u))).successes =
      cb.successes + cb.config.SuccessThreshold := by
    rw [r1, hlen]
  rcases r4 with hho | hcl
  · exfalso
    have := q2 hho
    rw [hsucc] at this
    omega
  · exact ⟨hcl, q1, hsucc⟩

/-- Witness for C4 amended: a probing breaker under testConfig (success
threshold 2) closes after the successes at instants 200 and 300, with the
failure counter reset and the successes counter at 2. -/
theorem probing_success_threshold_closes_witness :
    (runCalls cbProbeRun ([200, 300].map fun u => ((none : Option GoError), u))).state =
      State.Closed ∧
    (runCalls cbProbeRun ([200, 300].map fun u => ((none : Option GoError), u))).failures = 0 ∧
    (runCalls cbProbeRun ([200, 300].map fun u => ((none : Option GoError), u))).successes =
      cbProbeRun.successes + cbProbeRun.config.SuccessThreshold :=
  probing_success_threshold_closes cbProbeRun [200, 300] rfl (by decide) (by decide)
    (by decide) (by decide)

/-- Counterexample for C5: a probing breaker with one accumulated success and
a zero last-failure time reopens on an admitted failing call at instant 200,
but the last-failure time is not set to 200 and the successes counter is not
reset to 0. -/
theorem probing_failure_records_counterexample :
    (Execute cbProbeFail (fun _ => ((none : Option Unit), some errSimulated)) 200).2.state =
      State.Open ∧
    ¬ (Execute cbProbeFail (fun _ => ((none : Option Unit), some errSimulated)) 200).2.lastFailureTime = 200 ∧
    ¬ (Execute cbProbeFail (fun _ => ((none : Option Unit), some errSimulated)) 200).2.successes = 0 := by
  decide

/-- C5 amended: every failing call admitted while Probing immediately moves
the state to Open with the state-change time recorded at the instant of the
call and the failure counter incremented; the last-failure time is not
updated (it is written only by the dead processFailure and by Reset) and the
successes counter is left unchanged, not reset. -/
theorem probing_failure_reopens (cb : CircuitBreaker) (now : Int) (e : GoError)
    (hst : cb.state = State.HalfOpen)
    (hadm : cb.config.Timeout ≤ now - cb.lastFailureTime) :
    (Execute cb (fun _ => ((none : Option Unit), some e)) now).2.state = State.Open ∧
    (Execute cb (fun _ => ((none : Option Unit), some e)) now).2.lastStateChange = now ∧
    (Execute cb (fun _ => ((none : Option Unit), some e)) now).2.failures = cb.failures + 1 ∧
    (Execute cb (fun _ => ((none : Option Unit), some e)) now).2.successes = cb.successes ∧
    (Execute cb (fun _ => ((none : Option Unit), some e)) now).2.lastFailureTime =
      cb.lastFailureTime := by
  have hcan := canExecuteRequest_halfopen cb now hst hadm
  simp [Execute, hcan, afterRequestUpdates, hst]

/-- Witness for C5 amended: the probing breaker with one accumulated success,
failed at instant 200, reopens with lastStateChange 200, failures 1,
successes still 1 and lastFailureTime still 0. -/
theorem probing_failure_reopens_witness :
    (Execute cbProbeFail (fun _ => ((none : Option Unit), some errSimulated)) 200).2.state =
      State.Open ∧
    (Execute cbProbeFail (fun _ => ((none : Option Unit), some errSimulated)) 200).2.lastStateChange = 200 ∧
    (Execute cbProbeFail (fun _ => ((none : Option Unit), some errSimulated)) 200).2.failures =
      cbProbeFail.failures + 1 ∧
    (Execute cbProbeFail (fun _ => ((none : Option Unit), some errSimulated)) 200).2.successes =
      cbProbeFail.successes ∧
    (Execute cbProbeFail (fun _ => ((none : Option Unit), some errSimulated)) 200).2.lastFailureTime =
      cbProbeFail.lastFailureTime :=
  probing_failure_reopens cbProbeFail 200 errSimulated rfl (by decide)

lemma execStep_closed_succ (cb : CircuitBreaker) (t : Int)
    (hst : cb.state = State.Closed) :
    (execStep cb ((none : Option GoError), t)).state = State.Closed ∧
    (execStep cb ((none : Option GoError), t)).failures = 0 ∧
    (execStep cb ((none : Option GoError), t)).config = cb.config := by
  have hcan := canExecuteRequest_closed cb t hst
  simp [execStep, Execute, hcan, afterRequestUpdates, hst]

lemma runCalls_noTrip_closed (l : List (Option GoError × Int)) :
    ∀ (cb : CircuitBreaker), cb.state = State.Closed →
    noTrip cb.failures cb.config.FailureThreshold l = true →
    (runCalls cb l).state = State.Closed := by
  induction l with
  | nil =>
    intro cb hst _
    simpa [runCalls] using hst
  | cons o rest ih =>
    intro cb hst hsafe
    rcases o with ⟨oe, t⟩
    rcases oe with _ | e
    · have hstep := execStep_closed_succ cb t hst
      have hsafe2 : noTrip 0 cb.config.FailureThreshold rest = true := by
        simpa [noTrip] using hsafe
      have hrec := ih (execStep cb ((none : Option GoError), t)) hstep.1 (by
        rw [hstep.2.1, hstep.2.2]
        exact hsafe2)
      simpa [runCalls, List.foldl_cons] using hrec
    · simp only [noTrip, Option.isSome_some, if_true, Bool.and_eq_true,
        decide_eq_true_eq] at hsafe
      obtain ⟨hlt, hrest⟩ := hsafe
      have hstep := execStep_closed_fail cb e t hst hlt
      have hrec := ih (execStep cb (some e, t)) hstep.1 (by
        rw [hstep.2.1, hstep.2.2.1]
        exact hrest)
      simpa [runCalls, List.foldl_cons] using hrec

/-- C6: a successful call at any point while Closed resets the failure
counter to 0 and leaves the state Closed; consequently, for every
interleaving of outcomes that never accumulates FailureThreshold strictly
consecutive failures, the breaker stays Closed. -/
theorem normal_success_resets_failure_count :
    (∀ (cb : CircuitBreaker) (now : Int), cb.state = State.Closed →
      (execStep cb ((none : Option GoError), now)).failures = 0 ∧
      (execStep cb ((none : Option GoError), now)).state = State.Closed) ∧
    (∀ (cb : CircuitBreaker) (l : List (Option GoError × Int)),
      cb.state = State.Closed →
      noTrip cb.failures cb.config.FailureThreshold l = true →
      (runCalls cb l).state = State.Closed) := by
  constructor
  · intro cb now hst
    exact ⟨(execStep_closed_succ cb now hst).2.1, (execStep_closed_succ cb now hst).1⟩
  · intro cb l hst hsafe
    exact runCalls_noTrip_closed l cb hst hsafe

/-- Witness for C6: with threshold 3, the sequence failure, failure, success,
failure, failure leaves a fresh breaker Closed. -/
theorem normal_success_resets_failure_count_witness :
    (runCalls (New testConfig) exampleFFSFF).state = State.Closed :=
  normal_success_resets_failure_count.2 (New testConfig) exampleFFSFF rfl (by decide)

/-- C7 (the code bug): Validate is an unimplemented TODO stub that accepts the
configuration with zero thresholds, New builds a working breaker from it with
no error, the first call on that breaker is admitted, and its first failing
call already trips it to Open, the degenerate behaviour the spec warns of. -/
theorem new_accepts_nonpositive_thresholds :
    Config.Validate badConfig = none ∧
    (New badConfig).state = State.Closed ∧
    (canExecuteRequest (New badConfig) 0).1 = true ∧
    (Execute (New badConfig) (fun _ => ((none : Option Unit), some errSimulated)) 0).2.state =
      State.Open := by
  decide

lemma canExecuteRequest_successes (cb : CircuitBreaker) (now : Int) :
    (canExecuteRequest cb now).2.successes = cb.successes := by
  unfold canExecuteRequest
  split_ifs <;> rfl

lemma afterRequestUpdates_successes (cb : CircuitBreaker) (err : Option GoError)
    (now : Int) :
    (afterRequestUpdates cb err now).successes = cb.successes ∨
    (afterRequestUpdates cb err now).successes = cb.successes + 1 := by
  simp only [afterRequestUpdates]
  split_ifs <;> simp

lemma execute_successes (α : Type) (cb : CircuitBreaker)
    (request : Unit → Option α × Option GoError) (now : Int) :
    (Execute cb request now).2.successes = cb.successes ∨
    (Execute cb request now).2.successes = cb.successes + 1 := by
  have h2 := canExecuteRequest_successes cb now
  by_cases hcan : (canExecuteRequest cb now).1 = false
  · simp [Execute, hcan, h2]
  · have h1 := afterRequestUpdates_successes (canExecuteRequest cb now).2
      ((request ()).2) now
    rw [h2] at h1
    simpa [Execute, hcan] using h1

/-- C10: every admitted successful call increments the successes counter in
every state (afterRequestUpdates on a nil error always adds 1); no Execute
path ever resets it (its value after any Execute call is the old value or the
old value plus 1); only Reset zeroes it; and consequently, after two
successes while Closed, a trip at instant 10, and the cooldown, the single
successful probe at instant 200 moves the breaker from Probing straight to
Closed. -/
theorem successes_counter_never_reset_by_execute :
    (∀ (cb : CircuitBreaker) (now : Int),
      (afterRequestUpdates cb none now).successes = cb.successes + 1) ∧
    (∀ (α : Type) (cb : CircuitBreaker)
      (request : Unit → Option α × Option GoError) (now : Int),
      (Execute cb request now).2.successes = cb.successes ∨
      (Execute cb request now).2.successes = cb.successes + 1) ∧
    (∀ (cb : CircuitBreaker), (Reset cb).successes = 0) ∧
    (runCalls (New testConfig) earlyCloseHistory).state = State.Open ∧
    (runCalls (New testConfig) earlyCloseHistory).successes = 2 ∧
    (runCalls (New testConfig)
      (earlyCloseHistory ++ [((none : Option GoError), 200)])).state = State.Closed := by
  refine ⟨?_, execute_successes, fun cb => rfl, by decide, by decide, by decide⟩
  intro cb now
  simp only [afterRequestUpdates, Option.isSome_none, Bool.false_eq_true, if_false]
  split <;> rfl

/-- Witness for C10: a single successful call on the probing sample breaker
increments its successes counter from 1 to 2. -/
theorem successes_counter_never_reset_by_execute_witness :
    (afterRequestUpdates cbProbeFail none 200).successes = cbProbeFail.successes + 1 :=
  successes_counter_never_reset_by_execute.1 cbProbeFail 200

end CircuitBreakerLib
